import Mathlib

/-!
Verification of the session-concurrency and trigger-execution core of the
`jobs` personal-assistant backend.  Python source files are embedded as
Lean definitions: Python `str` values whose characters are inspected are
modelled as `List Char` (`Str`), stateful methods become explicit state
passing, and the scheduler / executor loops are given as pure functions
together with operation traces.
-/

namespace Jobs

/-- Python strings, modelled as lists of characters. -/
abbrev Str := List Char

/-- Does `hay` begin with `needle`?  (Initial-segment test on character
lists, first argument the needle.) -/
def leadsWith : Str → Str → Bool
  | [], _ => true
  | _ :: _, [] => false
  | c :: cs, d :: ds => c == d && leadsWith cs ds

/-- Python's substring test `needle in hay`. -/
def strHasSub : Str → Str → Bool
  | [], needle => needle.isEmpty
  | c :: t, needle => leadsWith needle (c :: t) || strHasSub t needle

/-- Python's `str.strip()`: drop whitespace from both ends. -/
def pyStrip (s : Str) : Str :=
  (((s.dropWhile Char.isWhitespace).reverse).dropWhile Char.isWhitespace).reverse

/-- Python's `str.replace(needle, "")`: remove every (left-to-right,
non-overlapping) occurrence of `needle`. -/
def pyRemoveAll (needle : Str) : Str → Str
  | [] => []
  | c :: t =>
      if h : needle ≠ [] ∧ leadsWith needle (c :: t) then
        pyRemoveAll needle ((c :: t).drop needle.length)
      else
        c :: pyRemoveAll needle t
termination_by hay => hay.length
decreasing_by
  · have hlen : 0 < needle.length := List.length_pos.mpr h.1
    simp [List.length_drop]
    omega
  · simp

/-- Python's `"\n".join(lines)` generalised to any separator. -/
def joinSep (sep : Str) : List Str → Str
  | [] => []
  | [x] => x
  | x :: y :: xs => x ++ sep ++ joinSep sep (y :: xs)

-- ===========================================================================
-- src/tools/scheduler.py
-- ===========================================================================

namespace Scheduler

/-- `ScheduledTask` rows of `src/tools/scheduler.py` (`scheduled_at` as an
abstract integer timestamp; SQLite stores ISO strings whose order agrees
with chronological order). -/
structure ScheduledTask where
  id : String
  prompt : String
  scheduled_at : Int
  repeat_seconds : Option Int := none
  status : String := "pending"
  deriving DecidableEq, Repr

/-- Python truthiness of the `repeat_seconds` column (`if task.repeat_seconds:`):
`None` and `0` are falsy. -/
def repeatTruthy : Option Int → Bool
  | none => false
  | some r => r ≠ 0

/-- `SchedulerStorage.get_due`: rows with `status = 'pending'` and
`scheduled_at <= now`. -/
def get_due (tasks : List ScheduledTask) (now : Int) : List ScheduledTask :=
  tasks.filter fun t => t.status = "pending" ∧ t.scheduled_at ≤ now

/-- `SchedulerStorage.set_status`: `UPDATE scheduled_tasks SET status = ? WHERE id = ?`. -/
def set_status (tasks : List ScheduledTask) (taskId status : String) : List ScheduledTask :=
  tasks.map fun t => if t.id = taskId then { t with status := status } else t

/-- `SchedulerStorage.reschedule`:
`UPDATE scheduled_tasks SET scheduled_at = ?, status = 'pending' WHERE id = ?`. -/
def reschedule (tasks : List ScheduledTask) (taskId : String) (newAt : Int) : List ScheduledTask :=
  tasks.map fun t =>
    if t.id = taskId then { t with scheduled_at := newAt, status := "pending" } else t

/-- Observable operations of one `SchedulerRunner._check` pass, in execution
order. -/
inductive SchedOp where
  | setStatus (taskId status : String)
  | callback (taskId prompt : String)
  | resched (taskId : String) (newAt : Int)
  deriving DecidableEq, Repr

/-- The body of the `for task in tasks:` loop in `SchedulerRunner._check` for
one due task: mark running, run the callback (`ok` tells whether
`self._on_task_due` returned or raised), then either reschedule to
`now + repeat_seconds` (recurring, success), mark completed (one-time,
success) or mark failed (callback raised).  `nowAfter` is `datetime.now()`
as read after the callback returns. -/
def check_one (store : List ScheduledTask) (t : ScheduledTask) (ok : Bool) (nowAfter : Int) :
    List ScheduledTask × List SchedOp :=
  let s1 := set_status store t.id "running"
  if ok then
    if repeatTruthy t.repeat_seconds then
      (reschedule s1 t.id (nowAfter + t.repeat_seconds.getD 0),
       [SchedOp.setStatus t.id "running", SchedOp.callback t.id t.prompt,
        SchedOp.resched t.id (nowAfter + t.repeat_seconds.getD 0)])
    else
      (set_status s1 t.id "completed",
       [SchedOp.setStatus t.id "running", SchedOp.callback t.id t.prompt,
        SchedOp.setStatus t.id "completed"])
  else
    (set_status s1 t.id "failed",
     [SchedOp.setStatus t.id "running", SchedOp.callback t.id t.prompt,
      SchedOp.setStatus t.id "failed"])

/-- The loop of `SchedulerRunner._check` over an already-fetched due list.
`outcome` and `nowAfter` are oracles (per task id) for whether the callback
succeeds and for the clock reading after it. -/
def check_list (due : List ScheduledTask) (store : List ScheduledTask)
    (outcome : String → Bool) (nowAfter : String → Int) :
    List ScheduledTask × List SchedOp :=
  match due with
  | [] => (store, [])
  | t :: rest =>
      let step := check_one store t (outcome t.id) (nowAfter t.id)
      let next := check_list rest step.1 outcome nowAfter
      (next.1, step.2 ++ next.2)

/-- `SchedulerRunner._check`: fetch the due tasks, then process each in order. -/
def run_check (store : List ScheduledTask) (now : Int)
    (outcome : String → Bool) (nowAfter : String → Int) :
    List ScheduledTask × List SchedOp :=
  check_list (get_due store now) store outcome nowAfter

/-- The callback invocations recorded in a trace. -/
def callbacks (ops : List SchedOp) : List (String × String) :=
  ops.filterMap fun op =>
    match op with
    | SchedOp.callback i p => some (i, p)
    | _ => none

/-- The net effect of `check_one` for due task `t` on a single stored row
(`set_status`/`reschedule` both update row-wise); proved equal to `check_one`
in `check_one_store`. -/
def apply_one (t : ScheduledTask) (ok : Bool) (nowAfter : Int) (u : ScheduledTask) :
    ScheduledTask :=
  if u.id = t.id then
    if ok then
      if repeatTruthy t.repeat_seconds then
        { u with scheduled_at := nowAfter + t.repeat_seconds.getD 0, status := "pending" }
      else { u with status := "completed" }
    else { u with status := "failed" }
  else u

/-- The net effect of a whole `_check` pass (over due list `due`) on a single
stored row. -/
def apply_list (due : List ScheduledTask) (outcome : String → Bool)
    (nowAfter : String → Int) (u : ScheduledTask) : ScheduledTask :=
  due.foldl (fun acc v => apply_one v (outcome v.id) (nowAfter v.id) acc) u

end Scheduler

-- ===========================================================================
-- src/users/session_manager.py
-- ===========================================================================

namespace Session

/-- `UserSession.receive_incoming`: `self._incoming.append(text[:2000])`. -/
def receive_incoming (incoming : List Str) (text : Str) : List Str :=
  incoming ++ [text.take 2000]

/-- Header line of the consumed-incoming block. -/
def incomingHeader : Str := "[Входящие сообщения:]".toList

/-- Footer line of the consumed-incoming block. -/
def incomingFooter : Str := "[Конец входящих]\n".toList

/-- `UserSession._consume_incoming`: flatten the buffered messages into one
block (header, messages, footer, joined by newlines) and clear the buffer;
an empty buffer yields the empty string and is left untouched. -/
def consume_incoming (incoming : List Str) : Str × List Str :=
  if incoming.isEmpty then ([], incoming)
  else (joinSep ['\n'] (incomingHeader :: (incoming ++ [incomingFooter])), [])

/-- The instruction appended to each follow-up prompt in `UserSession.query`. -/
def followUpInstruction : Str :=
  "[Продолжай с учётом новых сообщений. Выполни необходимые действия автоматически.]".toList

/-- The follow-up prompt built from one consumed batch. -/
def follow_up_prompt (batch : List Str) : Str :=
  (consume_incoming batch).1 ++ followUpInstruction

/-- The `while self._incoming:` drain loop of `UserSession.query`, abstracted
over the arrival schedule.  The first argument is the buffer content when the
loop is first entered (the messages received during the initial turn);
`arrivals` lists, per follow-up turn, the buffer entries appended by
`receive_incoming` while that follow-up runs.  The result is the list of
consumed batches, one per follow-up turn, in order. -/
def drain_loop : List Str → List (List Str) → List (List Str)
  | [], _ => []
  | buf, [] => [buf]
  | buf, a :: rest => buf :: drain_loop a rest

/-- Interrupt behaviour of one turn of `UserSession.query`: `intr` is the
`interrupted` flag, and each entry of the list records whether
`self._incoming` was non-empty at one
`if not interrupted and self._incoming:` check of the message loop.
Returns how many times `client.interrupt()` is called during the turn. -/
def turn_interrupts : Bool → List Bool → Nat
  | _, [] => 0
  | intr, b :: rest =>
      if !intr && b then turn_interrupts true rest + 1 else turn_interrupts intr rest

/-- Outcome of the guarded body of `UserSession.query` (the `try` block). -/
inductive AgentOutcome where
  | success
  | timeoutErr
  | failure (msg : Str)
  deriving DecidableEq

/-- Environment of one `UserSession.query` call: whether `_create_client`
succeeds, the error it raises otherwise, the outcome of the guarded body, and
the `text_parts` accumulated across the initial turn and all follow-ups. -/
structure QueryEnv where
  connect_ok : Bool
  connect_err : Str
  outcome : AgentOutcome
  texts : List Str

/-- The session fields mutated by `UserSession.query`. -/
structure SessionState where
  is_querying : Bool
  has_client : Bool
  deriving DecidableEq, Repr

/-- `"Нет ответа"`, returned when no text block was produced. -/
def noAnswerText : Str := "Нет ответа".toList

/-- `"Ошибка: таймаут запроса"`, returned on `TimeoutError`. -/
def timeoutText : Str := "Ошибка: таймаут запроса".toList

/-- `UserSession.query` control flow around the agent client: `_is_querying`
is set to `True`, then the client is created — `_create_client` runs *before*
the `try`, so a connect failure propagates and skips the `finally` cleanup —
then the guarded body runs; `except TimeoutError` and `except Exception`
return error texts, the `finally` clause clears the busy flag and drops the
client, and on success the last element of `text_parts` (or `"Нет ответа"`)
is returned. -/
def query_run (env : QueryEnv) (s : SessionState) : Except Str Str × SessionState :=
  if env.connect_ok = false then
    (Except.error env.connect_err, { s with is_querying := true })
  else
    match env.outcome with
    | AgentOutcome.success =>
        (Except.ok ((env.texts.getLast?).getD noAnswerText),
         { is_querying := false, has_client := false })
    | AgentOutcome.timeoutErr =>
        (Except.ok timeoutText, { is_querying := false, has_client := false })
    | AgentOutcome.failure e =>
        (Except.ok ("Ошибка: ".toList ++ e), { is_querying := false, has_client := false })

/-- Modelled from the spec: "Returns the last non-empty text produced."
(The code instead returns the last text block whether or not it is empty.) -/
def spec_last_nonempty (texts : List Str) : Str :=
  ((texts.filter fun t => !t.isEmpty).getLast?).getD noAnswerText

end Session

-- ===========================================================================
-- src/triggers/manager.py and src/triggers/storage.py
-- ===========================================================================

namespace Triggers

/-- `TriggerSubscription` rows (`src/triggers/models.py`); the `config` dict
is kept abstract as a type with decidable equality. -/
structure TriggerSubscription (Cfg : Type) where
  id : String
  trigger_type : String
  config : Cfg
  prompt : String
  active : Bool := true
  deriving DecidableEq, Repr

/-- `MAX_DYNAMIC_SUBSCRIPTIONS` of `src/triggers/manager.py`. -/
def MAX_DYNAMIC_SUBSCRIPTIONS : Nat := 20

/-- The state a `TriggerManager` reads and writes in `subscribe`:
the registered type names, the keys of `self._dynamic` (running sources),
and the persisted subscription rows. -/
structure ManagerState (Cfg : Type) where
  registry : List String
  dynamic : List String
  storage : List (TriggerSubscription Cfg)
  deriving Repr

/-- `TriggerStorage.list_active`: rows with `active = 1`. -/
def list_active {Cfg : Type} (storage : List (TriggerSubscription Cfg)) :
    List (TriggerSubscription Cfg) :=
  storage.filter fun s => s.active

/-- `", ".join(self._type_registry.keys()) or "нет"`. -/
def availableTypes (registry : List String) : String :=
  if registry.isEmpty then "нет" else String.intercalate ", " registry

/-- `TriggerManager.subscribe`: validate the type, the subscription cap and
duplicates, persist the row, then start the source (`start_ok` tells whether
`source.start()` returns or raises with message `start_err`); on a start
failure the persisted row is deleted again and the error is surfaced.
Returns the raised-or-returned value together with the state left behind. -/
def subscribe {Cfg : Type} [DecidableEq Cfg] (st : ManagerState Cfg)
    (trigger_type : String) (config : Cfg) (prompt : String)
    (freshId : String) (start_ok : Bool) (start_err : String) :
    Except String (TriggerSubscription Cfg) × ManagerState Cfg :=
  if trigger_type ∉ st.registry then
    (Except.error ("Неизвестный тип триггера: " ++ trigger_type ++ ". Доступные: "
        ++ availableTypes st.registry), st)
  else if MAX_DYNAMIC_SUBSCRIPTIONS ≤ st.dynamic.length then
    (Except.error
        "Лимит подписок (20) исчерпан. Удали ненужные через unsubscribe_trigger.", st)
  else
    match (list_active st.storage).find?
        (fun s => decide (s.trigger_type = trigger_type ∧ s.config = config)) with
    | some s =>
        (Except.error ("Подписка на " ++ trigger_type
            ++ " с такой конфигурацией уже существует [" ++ s.id ++ "]"), st)
    | none =>
        let sub : TriggerSubscription Cfg :=
          { id := freshId, trigger_type := trigger_type, config := config,
            prompt := prompt, active := true }
        let storage1 := st.storage ++ [sub]
        if start_ok then
          (Except.ok sub,
           { st with storage := storage1, dynamic := st.dynamic ++ [freshId] })
        else
          (Except.error ("Не удалось запустить триггер: " ++ start_err),
           { st with storage := storage1.filter fun s => decide (s.id ≠ freshId) })

-- ===========================================================================
-- src/triggers/executor.py
-- ===========================================================================

/-- `TriggerEvent` (`src/triggers/models.py`); of the `context` dict only
`context.get("task_id")` is ever read by the executor. -/
structure TriggerEvent where
  source : String
  prompt : Str
  context_task_id : Option String := none
  notify_owner : Bool := true
  preview_message : Option Str := none
  silent_marker : Option Str := none
  result_prefix : Option Str := none

/-- `MAX_MESSAGE_LENGTH` of `src/triggers/executor.py`. -/
def MAX_MESSAGE_LENGTH : Nat := 4000

/-- One transcript record as written by `TriggerExecutor._save_transcript`. -/
structure Transcript where
  task_id : String
  source : String
  timestamp : Int
  prompt : Str
  result : Str
  deriving DecidableEq, Repr

/-- `TriggerExecutor._trim_recent_log`: keep only the last `maxLines` lines. -/
def trim_recent (log : List Transcript) (maxLines : Nat) : List Transcript :=
  if maxLines < log.length then log.drop (log.length - maxLines) else log

/-- `TriggerExecutor._save_transcript` on the rolling `recent.jsonl` log:
append the record, then trim to the last 100 entries. -/
def save_transcript (recent : List Transcript) (t : Transcript) : List Transcript :=
  trim_recent (recent ++ [t]) 100

/-- The externally observable effects of one `TriggerExecutor.execute` call. -/
structure ExecEffects where
  previews : List Str
  delivered : List Str
  saved : List Transcript
  returned : Option Str
  deriving DecidableEq, Repr

/-- The truncation step of `TriggerExecutor.execute`:
`content[:MAX_MESSAGE_LENGTH] + "..."` when over the limit. -/
def truncate_content (content : Str) : Str :=
  if MAX_MESSAGE_LENGTH < content.length then
    content.take MAX_MESSAGE_LENGTH ++ "...".toList
  else content

/-- The delivery tail of `TriggerExecutor.execute`: empty content yields no
output; otherwise `result_prefix` is prepended, the content truncated, a
transcript saved when the event carries a task id, and the content delivered
when `notify_owner` is set. -/
def exec_deliver (ev : TriggerEvent) (content : Str) (now : Int)
    (recent : List Transcript) (previews : List Str) : ExecEffects × List Transcript :=
  if content.isEmpty then
    ({ previews := previews, delivered := [], saved := [], returned := none }, recent)
  else
    let content1 :=
      match TriggerEvent.result_prefix ev with
      | some p => p ++ '\n' :: content
      | none => content
    let content2 := truncate_content content1
    match ev.context_task_id with
    | some tid =>
        let tr : Transcript :=
          { task_id := tid, source := ev.source, timestamp := now,
            prompt := ev.prompt, result := content2 }
        ({ previews := previews,
           delivered := if ev.notify_owner then [content2] else [],
           saved := [tr], returned := some content2 },
         save_transcript recent tr)
    | none =>
        ({ previews := previews,
           delivered := if ev.notify_owner then [content2] else [],
           saved := [], returned := some content2 }, recent)

/-- The preview step of `TriggerExecutor.execute`: the preview message is
sent when present and `notify_owner` is set. -/
def execute_previews (ev : TriggerEvent) : List Str :=
  match ev.preview_message with
  | some pm => if ev.notify_owner then [pm] else []
  | none => []

/-- `if event.silent_marker and event.silent_marker in content:` —
a truthy (non-empty) marker occurring in the stripped reply. -/
def execute_silent (ev : TriggerEvent) (content : Str) : Bool :=
  match ev.silent_marker with
  | some m => !m.isEmpty && strHasSub content m
  | none => false

/-- `if event.silent_marker: content = content.replace(marker, "").strip()` —
the marker-removal step applied in the non-silent path. -/
def execute_content1 (ev : TriggerEvent) (content : Str) : Str :=
  match ev.silent_marker with
  | some m => if m.isEmpty then content else pyStrip (pyRemoveAll m content)
  | none => content

/-- `TriggerExecutor.execute`: send the preview, strip the agent reply,
suppress everything when a (truthy) silence marker occurs in the stripped
reply, otherwise remove the marker, re-strip and deliver.  `agentReply` is
the text returned by the ephemeral session's `query`; `recent` is the rolling
transcript log, returned updated. -/
def execute (ev : TriggerEvent) (agentReply : Str) (now : Int)
    (recent : List Transcript) : ExecEffects × List Transcript :=
  let previews := execute_previews ev
  let content := pyStrip agentReply
  if execute_silent ev content then
    ({ previews := previews, delivered := [], saved := [], returned := none }, recent)
  else
    exec_deliver ev (execute_content1 ev content) now recent previews

end Triggers

-- ===========================================================================
-- Helper lemmas
-- ===========================================================================

namespace Session

theorem turn_interrupts_armed (bs : List Bool) : turn_interrupts true bs = 0 := by
  induction bs with
  | nil => rfl
  | cons b rest ih => simp [turn_interrupts, ih]

theorem turn_interrupts_count (bs : List Bool) :
    turn_interrupts false bs = (if bs.any (fun b => b) then 1 else 0) := by
  induction bs with
  | nil => rfl
  | cons b rest ih =>
    cases b
    · simpa [turn_interrupts] using ih
    · simp [turn_interrupts, turn_interrupts_armed]

theorem foldl_receive_incoming (texts init : List Str) :
    texts.foldl receive_incoming init = init ++ texts.map (fun t => t.take 2000) := by
  induction texts generalizing init with
  | nil => simp
  | cons t rest ih => simp [receive_incoming, ih]

theorem drain_loop_spec (arrivals : List (List Str)) :
    ∀ buf, buf ≠ [] → (∀ a ∈ arrivals, a ≠ []) →
      (drain_loop buf arrivals).flatten = buf ++ arrivals.flatten ∧
      (drain_loop buf arrivals).length = arrivals.length + 1 := by
  induction arrivals with
  | nil =>
    intro buf hbuf _
    cases buf with
    | nil => exact absurd rfl hbuf
    | cons b bs => simp [drain_loop]
  | cons a rest ih =>
    intro buf hbuf hall
    cases buf with
    | nil => exact absurd rfl hbuf
    | cons b bs =>
      have ha : a ≠ [] := hall a (by simp)
      have hrest : ∀ x ∈ rest, x ≠ [] := fun x hx => hall x (by simp [hx])
      have h := ih a ha hrest
      simp [drain_loop, h.1, h.2]

end Session

namespace Scheduler

theorem apply_one_id (t : ScheduledTask) (ok : Bool) (n : Int) (u : ScheduledTask) :
    (apply_one t ok n u).id = u.id := by
  unfold apply_one
  split
  · split
    · split <;> rfl
    · rfl
  · rfl

theorem set_status_map (s : List ScheduledTask) (i st : String) :
    set_status s i st = s.map fun u => if u.id = i then { u with status := st } else u := rfl

theorem reschedule_map (s : List ScheduledTask) (i : String) (newAt : Int) :
    reschedule s i newAt =
      s.map fun u =>
        if u.id = i then { u with scheduled_at := newAt, status := "pending" } else u := rfl

theorem apply_one_ne (t : ScheduledTask) (ok : Bool) (n : Int) (u : ScheduledTask)
    (h : ¬ u.id = t.id) : apply_one t ok n u = u := by
  unfold apply_one
  simp [h]

theorem check_one_store (s : List ScheduledTask) (t : ScheduledTask) (ok : Bool) (n : Int) :
    (check_one s t ok n).1 = s.map (apply_one t ok n) := by
  unfold check_one
  cases ok <;> cases hrt : repeatTruthy t.repeat_seconds <;>
    (simp only [hrt, if_true, if_false, Bool.false_eq_true, Bool.true_eq_false,
       set_status_map, reschedule_map, List.map_map]
     apply List.map_congr_left
     intro u _
     by_cases h : u.id = t.id <;> simp [apply_one, h, hrt, Function.comp])

theorem apply_list_cons (v : ScheduledTask) (rest : List ScheduledTask)
    (o : String → Bool) (n : String → Int) (u : ScheduledTask) :
    apply_list (v :: rest) o n u = apply_list rest o n (apply_one v (o v.id) (n v.id) u) := rfl

theorem apply_list_append (a b : List ScheduledTask) (o : String → Bool) (n : String → Int)
    (u : ScheduledTask) :
    apply_list (a ++ b) o n u = apply_list b o n (apply_list a o n u) := by
  simp [apply_list, List.foldl_append]

theorem apply_list_id (due : List ScheduledTask) (o : String → Bool) (n : String → Int)
    (u : ScheduledTask) : (apply_list due o n u).id = u.id := by
  induction due generalizing u with
  | nil => rfl
  | cons v rest ih =>
    rw [apply_list_cons, ih, apply_one_id]

theorem apply_list_ne (due : List ScheduledTask) (o : String → Bool) (n : String → Int)
    (u : ScheduledTask) (h : ∀ v ∈ due, ¬ v.id = u.id) :
    apply_list due o n u = u := by
  induction due with
  | nil => rfl
  | cons v rest ih =>
    have hv : ¬ v.id = u.id := h v (by simp)
    rw [apply_list_cons, apply_one_ne _ _ _ _ (fun he => hv he.symm)]
    exact ih fun w hw => h w (by simp [hw])

theorem check_list_store (due : List ScheduledTask) (s : List ScheduledTask)
    (o : String → Bool) (n : String → Int) :
    (check_list due s o n).1 = s.map (apply_list due o n) := by
  induction due generalizing s with
  | nil =>
    show s = s.map (apply_list [] o n)
    have h1 : s.map (apply_list [] o n) = s.map id := rfl
    rw [h1, List.map_id]
  | cons t rest ih =>
    simp only [check_list]
    rw [ih, check_one_store, List.map_map]
    apply List.map_congr_left
    intro u _
    rfl

theorem callbacks_append (a b : List SchedOp) :
    callbacks (a ++ b) = callbacks a ++ callbacks b := by
  simp [callbacks]

theorem check_one_callbacks (s : List ScheduledTask) (t : ScheduledTask) (ok : Bool) (n : Int) :
    callbacks (check_one s t ok n).2 = [(t.id, t.prompt)] := by
  unfold check_one
  cases ok <;> cases hrt : repeatTruthy t.repeat_seconds <;> simp [hrt, callbacks]

theorem check_list_callbacks (due : List ScheduledTask) (s : List ScheduledTask)
    (o : String → Bool) (n : String → Int) :
    callbacks (check_list due s o n).2 = due.map (fun t => (t.id, t.prompt)) := by
  induction due generalizing s with
  | nil => rfl
  | cons t rest ih =>
    simp only [check_list]
    rw [callbacks_append, check_one_callbacks, ih]
    rfl

theorem eq_of_mem_pairwise_ids {l : List ScheduledTask}
    (h : l.Pairwise fun a b => ¬ a.id = b.id) {w t : ScheduledTask}
    (hw : w ∈ l) (ht : t ∈ l) (hid : w.id = t.id) : w = t := by
  induction l with
  | nil => cases hw
  | cons v rest ih =>
    rcases List.pairwise_cons.mp h with ⟨hv, hrest⟩
    rcases List.mem_cons.mp hw with rfl | hw'
    · rcases List.mem_cons.mp ht with rfl | ht'
      · rfl
      · exact absurd hid (hv t ht')
    · rcases List.mem_cons.mp ht with rfl | ht'
      · exact absurd hid.symm (hv w hw')
      · exact ih hrest hw' ht'

theorem countP_id_eq_one {l : List ScheduledTask} {t : ScheduledTask}
    (h : l.Pairwise fun a b => ¬ a.id = b.id) (ht : t ∈ l) :
    l.countP (fun u => decide (u.id = t.id)) = 1 := by
  induction l with
  | nil => cases ht
  | cons v rest ih =>
    rcases List.pairwise_cons.mp h with ⟨hv, hrest⟩
    by_cases hveq : v.id = t.id
    · rw [List.countP_cons]
      have hz : rest.countP (fun u => decide (u.id = t.id)) = 0 := by
        rw [List.countP_eq_zero]
        intro u hu
        simp only [decide_eq_true_eq]
        intro he
        exact hv u hu (hveq.trans he.symm)
      simp [hz, hveq]
    · have ht' : t ∈ rest := by
        rcases List.mem_cons.mp ht with heq | ht'
        · exact absurd (congrArg ScheduledTask.id heq).symm hveq
        · exact ht'
      rw [List.countP_cons]
      simp [hveq, ih hrest ht']

end Scheduler

-- ===========================================================================
-- Claim theorems: Scheduler (C1, C7)
-- ===========================================================================

namespace Scheduler

/-- C1 fails as stated: `_check` runs the callback *first* and reschedules
only afterwards, and only on success.  For the recurring task fired at
`T = 1000` with `R = 60` whose callback raises, `scheduled_at` stays `1000`
(not `T + R = 1060`) and the task is marked failed; and in the success trace
the reschedule operation comes *after* the callback, not before. -/
theorem reschedule_before_execution_cex :
    (run_check [⟨"t1", "p", 1000, some 60, "pending"⟩] 1000
        (fun _ => false) (fun _ => 1000)).1 =
      [⟨"t1", "p", 1000, some 60, "failed"⟩] ∧
    (run_check [⟨"t1", "p", 1000, some 60, "pending"⟩] 1000
        (fun _ => true) (fun _ => 1000)).2 =
      [SchedOp.setStatus "t1" "running", SchedOp.callback "t1" "p",
       SchedOp.resched "t1" 1060] ∧
    (1000 : Int) ≠ 1000 + 60 := by decide

/-- C1 amended: for a recurring due task (repeat interval `R`, truthy) fired
by `_check`, the task is first marked running, then the callback runs; on
success `scheduled_at` becomes `now + R` where `now` is read *after* the
callback returns (the reschedule trace event follows the callback event) and
the status returns to pending; if the callback raises, `scheduled_at` of
every row is left unchanged and the task is marked failed — double-fire
protection comes from the running status, not from advancing the schedule
first. -/
theorem recurring_reschedule_spec (store : List ScheduledTask) (t : ScheduledTask)
    (r nowAfter : Int) (hr : t.repeat_seconds = some r) (hr0 : r ≠ 0) :
    (check_one store t true nowAfter).2 =
      [SchedOp.setStatus t.id "running", SchedOp.callback t.id t.prompt,
       SchedOp.resched t.id (nowAfter + r)] ∧
    (∀ u ∈ (check_one store t true nowAfter).1, u.id = t.id →
      u.scheduled_at = nowAfter + r ∧ u.status = "pending") ∧
    (check_one store t false nowAfter).2 =
      [SchedOp.setStatus t.id "running", SchedOp.callback t.id t.prompt,
       SchedOp.setStatus t.id "failed"] ∧
    ((check_one store t false nowAfter).1.map fun u => u.scheduled_at) =
      (store.map fun u => u.scheduled_at) ∧
    (∀ u ∈ (check_one store t false nowAfter).1, u.id = t.id → u.status = "failed") := by
  have hrt : repeatTruthy t.repeat_seconds = true := by
    simp [hr, repeatTruthy, hr0]
  have hg : t.repeat_seconds.getD 0 = r := by simp [hr]
  refine ⟨?_, ?_, ?_, ?_, ?_⟩
  · unfold check_one
    simp [hrt, hg]
  · intro u hu hid
    rw [check_one_store] at hu
    rcases List.mem_map.mp hu with ⟨v, hv, rfl⟩
    have hvid : v.id = t.id := by
      rw [← apply_one_id t true nowAfter v]
      exact hid
    simp [apply_one, hvid, hrt, hg]
  · unfold check_one
    simp
  · rw [check_one_store, List.map_map]
    apply List.map_congr_left
    intro u _
    by_cases h : u.id = t.id <;> simp [apply_one, h, Function.comp]
  · intro u hu hid
    rw [check_one_store] at hu
    rcases List.mem_map.mp hu with ⟨v, hv, rfl⟩
    have hvid : v.id = t.id := by
      rw [← apply_one_id t false nowAfter v]
      exact hid
    simp [apply_one, hvid]

/-- Witness for `recurring_reschedule_spec`: the success trace of a concrete
recurring task. -/
theorem recurring_reschedule_spec_witness :
    (check_one []
        { id := "t1", prompt := "p", scheduled_at := 0,
          repeat_seconds := some 60, status := "pending" } true 100).2 =
      [SchedOp.setStatus "t1" "running", SchedOp.callback "t1" "p",
       SchedOp.resched "t1" 160] :=
  (Scheduler.recurring_reschedule_spec []
      { id := "t1", prompt := "p", scheduled_at := 0,
        repeat_seconds := some 60, status := "pending" } 60 100 rfl (by decide)).1

/-- C7 fails as stated: `get_due` selects only rows with status exactly
`'pending'`, not every non-terminal status — a due task whose status is
`'running'` (non-terminal) is not returned by the poll. -/
theorem get_due_nonterminal_cex :
    get_due [⟨"t1", "p", 1000, none, "running"⟩] 1000 = [] ∧
    ¬ ("running" ∈ ["completed", "failed", "cancelled"]) ∧
    ((1000 : Int) ≤ (1000 : Int)) := by decide

/-- C7 amended: the poll selects exactly the tasks with status `'pending'`
and `scheduled_at <= now`; in one `_check` pass each due task's callback is
invoked exactly once (in particular exactly once for a given one-time due
task when stored ids are distinct), and on success a one-time task
(`repeat_seconds` falsy) is marked `'completed'`. -/
theorem poll_one_time_spec (store : List ScheduledTask) (now : Int)
    (outcome : String → Bool) (nowAfter : String → Int) (t : ScheduledTask)
    (hnd : (store.map fun u => u.id).Nodup)
    (ht : t ∈ store) (hs : t.status = "pending") (hdue : t.scheduled_at ≤ now)
    (hone : t.repeat_seconds = none) (hok : outcome t.id = true) :
    (∀ u, u ∈ get_due store now ↔ u ∈ store ∧ u.status = "pending" ∧ u.scheduled_at ≤ now) ∧
    callbacks (run_check store now outcome nowAfter).2 =
      (get_due store now).map (fun u => (u.id, u.prompt)) ∧
    (callbacks (run_check store now outcome nowAfter).2).countP
        (fun c => decide (c.1 = t.id)) = 1 ∧
    (∀ u ∈ (run_check store now outcome nowAfter).1, u.id = t.id →
      u.status = "completed") := by
  have hpair_store : store.Pairwise (fun a b => ¬ a.id = b.id) := by
    rw [List.Nodup, List.pairwise_map] at hnd
    simpa using hnd
  have hdue_pair : (get_due store now).Pairwise (fun a b => ¬ a.id = b.id) :=
    hpair_store.sublist (List.filter_sublist store)
  have htdue : t ∈ get_due store now := by
    simp [get_due, List.mem_filter, ht, hs, hdue]
  refine ⟨?_, ?_, ?_, ?_⟩
  · intro u
    simp [get_due, List.mem_filter, and_assoc]
  · exact check_list_callbacks _ _ _ _
  · unfold run_check
    rw [check_list_callbacks, List.countP_map]
    exact countP_id_eq_one hdue_pair htdue
  · intro u hu hid
    rw [run_check, check_list_store] at hu
    rcases List.mem_map.mp hu with ⟨w, hw, rfl⟩
    have hwid : w.id = t.id := by
      rw [← apply_list_id (get_due store now) outcome nowAfter w]
      exact hid
    have hwt : w = t := eq_of_mem_pairwise_ids hpair_store hw ht hwid
    subst hwt
    rcases List.append_of_mem htdue with ⟨l1, l2, hsplit⟩
    rw [hsplit] at hdue_pair
    rw [hsplit, apply_list_append]
    rcases List.pairwise_append.mp hdue_pair with ⟨_, hp2, hcross⟩
    have hl1 : ∀ v ∈ l1, ¬ v.id = w.id := fun v hv => hcross v hv w (by simp)
    rcases List.pairwise_cons.mp hp2 with ⟨hl2, _⟩
    rw [apply_list_ne l1 _ _ _ hl1, apply_list_cons]
    have happ : apply_one w (outcome w.id) (nowAfter w.id) w =
        { w with status := "completed" } := by
      simp [apply_one, hok, hone, repeatTruthy]
    rw [happ, apply_list_ne]
    intro v hv he
    exact hl2 v hv he.symm

/-- Witness for `poll_one_time_spec`: one pending one-time due task fires
exactly one callback. -/
theorem poll_one_time_spec_witness :
    (callbacks (run_check [⟨"t1", "p", 900, none, "pending"⟩] 1000
        (fun _ => true) (fun _ => 1000)).2).countP
      (fun c => decide (c.1 = "t1")) = 1 :=
  (Scheduler.poll_one_time_spec [⟨"t1", "p", 900, none, "pending"⟩] 1000
      (fun _ => true) (fun _ => 1000) ⟨"t1", "p", 900, none, "pending"⟩
      (by decide) (by decide) rfl (by decide) rfl rfl).2.2.1

end Scheduler

-- ===========================================================================
-- Claim theorems: Conversation Session (C2, C4, C5, C8, C10)
-- ===========================================================================

namespace Session

/-- C10: `receive_incoming` appends exactly the first 2000 characters of the
message to the buffer; the stored entry never exceeds 2000 characters, a
message of at most 2000 characters is stored unchanged, and a longer message
is silently shortened (the stored entry differs from the original). -/
theorem receive_incoming_truncates (incoming : List Str) (text : Str) :
    receive_incoming incoming text = incoming ++ [text.take 2000] ∧
    (text.take 2000).length ≤ 2000 ∧
    (text.length ≤ 2000 → receive_incoming incoming text = incoming ++ [text]) ∧
    (2000 < text.length → (text.take 2000).length = 2000 ∧ text.take 2000 ≠ text) := by
  refine ⟨rfl, ?_, ?_, ?_⟩
  · simp only [List.length_take]
    omega
  · intro h
    simp [receive_incoming, List.take_of_length_le h]
  · intro h
    refine ⟨?_, ?_⟩
    · simp only [List.length_take]
      omega
    · intro heq
      have hlen := congrArg List.length heq
      simp only [List.length_take] at hlen
      omega

/-- Witness for `receive_incoming_truncates` at a short concrete message. -/
theorem receive_incoming_truncates_witness :
    Session.receive_incoming [] ['h', 'i'] = [] ++ [['h', 'i']] :=
  (Session.receive_incoming_truncates [] ['h', 'i']).2.2.1 (by decide)

/-- C4: within any single turn of `UserSession.query` (initial or follow-up),
`client.interrupt()` is called exactly once if the incoming buffer is
non-empty at some check of that turn's message loop and zero times otherwise
— in particular at most once per turn; the `interrupted` flag starts at
`False` again in each turn, which is the re-arming on the next turn. -/
theorem interrupt_once_per_turn (turns : List (List Bool)) :
    ∀ checks ∈ turns,
      turn_interrupts false checks = (if checks.any (fun b => b) then 1 else 0) ∧
      turn_interrupts false checks ≤ 1 := by
  intro checks _
  refine ⟨turn_interrupts_count checks, ?_⟩
  rw [turn_interrupts_count checks]
  split <;> omega

/-- Witness for `interrupt_once_per_turn` on a concrete three-check turn. -/
theorem interrupt_once_per_turn_witness :
    Session.turn_interrupts false [false, true, true] =
      (if [false, true, true].any (fun b => b) then 1 else 0) ∧
    Session.turn_interrupts false [false, true, true] ≤ 1 :=
  Session.interrupt_once_per_turn [[false, true, true]] [false, true, true] (by simp)

/-- C2: for any arrival schedule in which messages keep arriving only while a
turn is running (each batch non-empty), the drain loop of `UserSession.query`
delivers every received message — truncated to 2000 characters by
`receive_incoming` — in exactly one follow-up batch, in receipt order, and
issues exactly one follow-up turn per batch until the buffer is empty. -/
theorem no_lost_input (initTexts : List Str) (arrivalTexts : List (List Str))
    (h0 : initTexts ≠ []) (h : ∀ ts ∈ arrivalTexts, ts ≠ []) :
    (drain_loop (initTexts.foldl receive_incoming [])
        (arrivalTexts.map fun ts => ts.foldl receive_incoming [])).flatten =
      (initTexts ++ arrivalTexts.flatten).map (fun t => t.take 2000) ∧
    (drain_loop (initTexts.foldl receive_incoming [])
        (arrivalTexts.map fun ts => ts.foldl receive_incoming [])).length =
      arrivalTexts.length + 1 := by
  have hb : initTexts.foldl receive_incoming [] =
      initTexts.map (fun t => t.take 2000) := by
    simpa using foldl_receive_incoming initTexts []
  have harr : (arrivalTexts.map fun ts => ts.foldl receive_incoming []) =
      arrivalTexts.map (fun ts => ts.map (fun t => t.take 2000)) := by
    apply List.map_congr_left
    intro ts _
    simpa using foldl_receive_incoming ts []
  have hbne : initTexts.map (fun t => t.take 2000) ≠ [] := by
    simpa using h0
  have hane : ∀ a ∈ arrivalTexts.map (fun ts => ts.map (fun t => t.take 2000)), a ≠ [] := by
    intro a ha
    rcases List.mem_map.mp ha with ⟨ts, hts, rfl⟩
    simpa using h ts hts
  have main := drain_loop_spec _ _ hbne hane
  rw [hb, harr]
  refine ⟨?_, ?_⟩
  · rw [main.1]
    simp
  · rw [main.2]
    simp

/-- Witness for `no_lost_input`: one message during the initial turn, one
during the first follow-up. -/
theorem no_lost_input_witness :
    (drain_loop ([['A']].foldl receive_incoming [])
        ([[['B']]].map fun ts => ts.foldl receive_incoming [])).flatten =
      ([['A']] ++ [[['B']]].flatten).map (fun t => t.take 2000) ∧
    (drain_loop ([['A']].foldl receive_incoming [])
        ([[['B']]].map fun ts => ts.foldl receive_incoming [])).length =
      [[['B']]].length + 1 :=
  Session.no_lost_input [['A']] [[['B']]] (by decide) (by decide)

/-- C5 fails as stated: when `_create_client` raises (it runs inside the
lock but *before* the `try`), `query` propagates the exception to its caller
and the `finally` cleanup is skipped, leaving `_is_querying = True`. -/
theorem query_raises_cex :
    query_run
        { connect_ok := false, connect_err := "CLIConnectionError".toList,
          outcome := AgentOutcome.success, texts := [] }
        { is_querying := false, has_client := false } =
      (Except.error "CLIConnectionError".toList,
       { is_querying := true, has_client := false }) := rfl

/-- C5 amended: once the client has been created successfully, `query` never
raises — the guarded body's timeout yields the fixed timeout text, any other
exception yields `"Ошибка: " ++ msg` — and in all those cases the `finally`
clause clears the busy flag and drops the client. -/
theorem query_failure_spec (env : QueryEnv) (s : SessionState)
    (hc : env.connect_ok = true) :
    (∃ out, (query_run env s).1 = Except.ok out) ∧
    (env.outcome = AgentOutcome.timeoutErr →
      (query_run env s).1 = Except.ok timeoutText) ∧
    (∀ e, env.outcome = AgentOutcome.failure e →
      (query_run env s).1 = Except.ok ("Ошибка: ".toList ++ e)) ∧
    (query_run env s).2 = { is_querying := false, has_client := false } := by
  cases ho : env.outcome <;>
    simp_all [query_run, hc, ho]

/-- Witness for `query_failure_spec`: a timed-out query returns the timeout
text. -/
theorem query_failure_spec_witness :
    (query_run
        { connect_ok := true, connect_err := [],
          outcome := AgentOutcome.timeoutErr, texts := [] }
        { is_querying := true, has_client := true }).1 = Except.ok timeoutText :=
  (Session.query_failure_spec _ _ rfl).2.1 rfl

/-- C8 fails as stated: `query` returns `text_parts[-1]`, the last text block
even when it is empty, not the last *non-empty* text: with text blocks
`["a", ""]` the code returns `""` while the spec's last non-empty text is
`"a"`. -/
theorem last_text_cex :
    (query_run
        { connect_ok := true, connect_err := [],
          outcome := AgentOutcome.success, texts := [['a'], []] }
        { is_querying := false, has_client := false }).1 = Except.ok [] ∧
    spec_last_nonempty [['a'], []] = ['a'] ∧
    ([] : Str) ≠ ['a'] := ⟨rfl, by decide, by decide⟩

/-- C8 amended: on success `query` returns the *last* text block produced
across the initial turn and all follow-ups, empty or not, and the fixed
no-answer text `"Нет ответа"` when no text block was produced at all. -/
theorem query_return_spec (env : QueryEnv) (s : SessionState)
    (hc : env.connect_ok = true) (ho : env.outcome = AgentOutcome.success) :
    (env.texts = [] → (query_run env s).1 = Except.ok noAnswerText) ∧
    (∀ ts tl, env.texts = ts ++ [tl] → (query_run env s).1 = Except.ok tl) := by
  constructor
  · intro ht
    simp [query_run, hc, ho, ht]
  · intro ts tl ht
    simp [query_run, hc, ho, ht]

/-- Witness for `query_return_spec`: a single text block is returned as is. -/
theorem query_return_spec_witness :
    (query_run
        { connect_ok := true, connect_err := [],
          outcome := AgentOutcome.success, texts := [['x']] }
        { is_querying := false, has_client := false }).1 = Except.ok ['x'] :=
  (Session.query_return_spec _ _ rfl rfl).2 [] ['x'] rfl

end Session

-- ===========================================================================
-- Claim theorems: Trigger Manager (C3)
-- ===========================================================================

namespace Triggers

/-- C3: `subscribe` rejects an unknown trigger type, a reached subscription
cap, and an exact type+config duplicate, each with a descriptive error and
with the manager state left untouched; and when the source's `start()` raises
after the row was persisted, the persisted row is deleted again — the state
is exactly the one before the call, so `list_active` afterwards cannot
contain the attempted row — and the error is surfaced to the caller. -/
theorem subscribe_rollback_spec {Cfg : Type} [DecidableEq Cfg] (st : ManagerState Cfg)
    (trigger_type : String) (config : Cfg) (prompt freshId start_err : String)
    (start_ok : Bool)
    (hfresh : ∀ s ∈ st.storage, ¬ s.id = freshId) :
    (trigger_type ∉ st.registry →
      subscribe st trigger_type config prompt freshId start_ok start_err =
        (Except.error ("Неизвестный тип триггера: " ++ trigger_type ++ ". Доступные: "
            ++ availableTypes st.registry), st)) ∧
    (trigger_type ∈ st.registry → MAX_DYNAMIC_SUBSCRIPTIONS ≤ st.dynamic.length →
      subscribe st trigger_type config prompt freshId start_ok start_err =
        (Except.error
            "Лимит подписок (20) исчерпан. Удали ненужные через unsubscribe_trigger.",
         st)) ∧
    (∀ s0, trigger_type ∈ st.registry →
      st.dynamic.length < MAX_DYNAMIC_SUBSCRIPTIONS →
      (list_active st.storage).find?
          (fun s => decide (s.trigger_type = trigger_type ∧ s.config = config)) =
        some s0 →
      subscribe st trigger_type config prompt freshId start_ok start_err =
        (Except.error ("Подписка на " ++ trigger_type
            ++ " с такой конфигурацией уже существует [" ++ s0.id ++ "]"), st)) ∧
    (trigger_type ∈ st.registry → st.dynamic.length < MAX_DYNAMIC_SUBSCRIPTIONS →
      (list_active st.storage).find?
          (fun s => decide (s.trigger_type = trigger_type ∧ s.config = config)) =
        none →
      subscribe st trigger_type config prompt freshId false start_err =
        (Except.error ("Не удалось запустить триггер: " ++ start_err), st)) := by
  refine ⟨?_, ?_, ?_, ?_⟩
  · intro h
    simp only [subscribe]
    rw [if_pos h]
  · intro h hlim
    simp only [subscribe]
    rw [if_neg (not_not_intro h), if_pos hlim]
  · intro s0 h hlt hf
    have hlim : ¬ MAX_DYNAMIC_SUBSCRIPTIONS ≤ st.dynamic.length := Nat.not_le.mpr hlt
    simp only [subscribe]
    rw [if_neg (not_not_intro h), if_neg hlim, hf]
  · intro h hlt hf
    have hlim : ¬ MAX_DYNAMIC_SUBSCRIPTIONS ≤ st.dynamic.length := Nat.not_le.mpr hlt
    have hkeep : st.storage.filter (fun s => decide (s.id ≠ freshId)) = st.storage := by
      rw [List.filter_eq_self]
      intro s hsm
      exact decide_eq_true (hfresh s hsm)
    have hsub : List.filter (fun s : TriggerSubscription Cfg => decide (s.id ≠ freshId))
        [{ id := freshId, trigger_type := trigger_type, config := config,
           prompt := prompt, active := true }] = [] := by
      simp
    simp only [subscribe]
    rw [if_neg (not_not_intro h), if_neg hlim, hf, if_neg Bool.false_ne_true,
      List.filter_append, hkeep, hsub, List.append_nil]

/-- Witness for `subscribe_rollback_spec`: a failing `start()` leaves the
state exactly as before. -/
theorem subscribe_rollback_spec_witness :
    subscribe (⟨["tg_channel"], [], []⟩ : ManagerState Nat)
        "tg_channel" 7 "watch" "ab12cd34" false "boom" =
      (Except.error ("Не удалось запустить триггер: " ++ "boom"),
       (⟨["tg_channel"], [], []⟩ : ManagerState Nat)) :=
  ((Triggers.subscribe_rollback_spec (⟨["tg_channel"], [], []⟩ : ManagerState Nat)
      "tg_channel" 7 "watch" "ab12cd34" "boom" false (by simp)).2.2.2
    (by simp) (by decide) rfl)

end Triggers

-- ===========================================================================
-- Helper lemmas: text processing and Trigger Executor
-- ===========================================================================

theorem pyRemoveAll_not_sub (needle : Str) (hay : Str) (hne : needle ≠ [])
    (h : strHasSub hay needle = false) : pyRemoveAll needle hay = hay := by
  induction hay with
  | nil => simp [pyRemoveAll]
  | cons c t ih =>
    rw [strHasSub] at h
    rcases Bool.or_eq_false_iff.mp h with ⟨h1, h2⟩
    rw [pyRemoveAll]
    rw [dif_neg]
    · rw [ih h2]
    · intro hcon
      rw [hcon.2] at h1
      cases h1

namespace Triggers

theorem truncate_content_length (c : Str) :
    (truncate_content c).length ≤ MAX_MESSAGE_LENGTH + 3 := by
  unfold truncate_content
  split
  · simp only [List.length_append, List.length_take]
    have : ("...".toList).length = 3 := by decide
    rw [this]
    simp only [MAX_MESSAGE_LENGTH]
    omega
  · simp only [MAX_MESSAGE_LENGTH] at *
    omega

theorem exec_deliver_delivered (ev : TriggerEvent) (content : Str) (now : Int)
    (recent : List Transcript) (previews : List Str) :
    ∀ d ∈ (exec_deliver ev content now recent previews).1.delivered,
      d.length ≤ MAX_MESSAGE_LENGTH + 3 ∧
      (exec_deliver ev content now recent previews).1.returned = some d := by
  intro d hd
  unfold exec_deliver at hd ⊢
  by_cases he : content.isEmpty = true
  · rw [if_pos he] at hd
    simp at hd
  · rw [if_neg he] at hd ⊢
    cases hc : ev.context_task_id <;> cases hn : ev.notify_owner <;>
      simp_all [truncate_content_length]

theorem exec_deliver_none (ev : TriggerEvent) (content : Str) (now : Int)
    (recent : List Transcript) (previews : List Str)
    (h : ev.context_task_id = none) :
    (exec_deliver ev content now recent previews).1.saved = [] ∧
    (exec_deliver ev content now recent previews).2 = recent := by
  unfold exec_deliver
  by_cases he : content.isEmpty = true
  · simp [he]
  · simp [he, h]

theorem truncate_content_length_of_lt (c : Str) (h : MAX_MESSAGE_LENGTH < c.length) :
    (truncate_content c).length = MAX_MESSAGE_LENGTH + 3 := by
  unfold truncate_content
  rw [if_pos h, List.length_append, List.length_take]
  have hdot : ("...".toList).length = 3 := by decide
  rw [hdot]
  simp only [MAX_MESSAGE_LENGTH] at h ⊢
  omega

theorem exec_deliver_delivered_eq (ev : TriggerEvent) (content : Str) (now : Int)
    (recent : List Transcript) (previews : List Str)
    (hne : content.isEmpty = false) (hp : TriggerEvent.result_prefix ev = none)
    (hn : ev.notify_owner = true) :
    (exec_deliver ev content now recent previews).1.delivered =
      [truncate_content content] := by
  unfold exec_deliver
  rw [hne, if_neg Bool.false_ne_true]
  cases hc : ev.context_task_id <;> simp [hp, hn, hc]

theorem exec_deliver_saved (ev : TriggerEvent) (content : Str) (now : Int)
    (recent : List Transcript) (previews : List Str) (tid : String) (c : Str)
    (htid : ev.context_task_id = some tid)
    (hret : (exec_deliver ev content now recent previews).1.returned = some c) :
    (exec_deliver ev content now recent previews).1.saved =
      [{ task_id := tid, source := ev.source, timestamp := now,
         prompt := ev.prompt, result := c }] ∧
    (exec_deliver ev content now recent previews).2 =
      save_transcript recent
        { task_id := tid, source := ev.source, timestamp := now,
          prompt := ev.prompt, result := c } := by
  unfold exec_deliver at hret ⊢
  by_cases he : content.isEmpty = true
  · rw [if_pos he] at hret
    simp at hret
  · rw [if_neg he] at hret ⊢
    simp only [htid] at hret ⊢
    simp only [Option.some.injEq] at hret
    subst hret
    exact ⟨rfl, rfl⟩

end Triggers

-- ===========================================================================
-- Claim theorems: Trigger Executor (C6, C9)
-- ===========================================================================

namespace Triggers

/-- C6 fails as stated: the delivered content is not truncated *to* the
transport message-size limit — when the (stripped) reply exceeds 4000
characters, the executor sends the first 4000 characters plus `"..."`,
4003 characters in total, which exceeds `MAX_MESSAGE_LENGTH`. -/
theorem truncate_limit_cex :
    ((execute ⟨"s", [], none, true, none, none, none⟩
        (List.replicate 4001 'a') 0 []).1.delivered.map fun d => d.length) = [4003] ∧
    MAX_MESSAGE_LENGTH < 4003 := by
  constructor
  · have h1 : List.dropWhile Char.isWhitespace (List.replicate 4001 'a') =
        List.replicate 4001 'a' := by
      rw [List.dropWhile_eq_self_iff]
      intro hl
      rw [List.get_replicate]
      decide
    have hstrip : pyStrip (List.replicate 4001 'a') = List.replicate 4001 'a' := by
      unfold pyStrip
      rw [h1, List.reverse_replicate, h1, List.reverse_replicate]
    have hne2 : (List.replicate 4001 'a').isEmpty = false := by
      simp [List.isEmpty_iff_length_eq_zero]
    have hlen : MAX_MESSAGE_LENGTH < (List.replicate 4001 'a').length := by
      rw [List.length_replicate]
      decide
    simp only [execute, hstrip]
    rw [show execute_silent ⟨"s", [], none, true, none, none, none⟩
        (List.replicate 4001 'a') = false from rfl]
    rw [if_neg Bool.false_ne_true]
    rw [show execute_content1 ⟨"s", [], none, true, none, none, none⟩
        (List.replicate 4001 'a') = List.replicate 4001 'a' from rfl]
    rw [exec_deliver_delivered_eq _ _ _ _ _ hne2 rfl rfl]
    rw [List.map_cons, List.map_nil, truncate_content_length_of_lt _ hlen]
    rfl
  · decide

/-- C6 amended: for an event with a non-empty silence marker, if the stripped
reply contains the marker then nothing is delivered, no transcript is
persisted and no output is returned; otherwise the marker-removal step is a
no-op (the marker does not occur), and any delivered text equals the returned
content: `result_prefix` prepended then truncated to the first 4000
characters plus `"..."` — hence at most `MAX_MESSAGE_LENGTH + 3` characters,
which may exceed the limit by the three ellipsis characters. -/
theorem execute_silence_spec (ev : TriggerEvent) (agentReply : Str) (now : Int)
    (recent : List Transcript) (m : Str)
    (hm : ev.silent_marker = some m) (hne : m ≠ []) :
    (strHasSub (pyStrip agentReply) m = true →
      (execute ev agentReply now recent).1.delivered = [] ∧
      (execute ev agentReply now recent).1.saved = [] ∧
      (execute ev agentReply now recent).1.returned = none ∧
      (execute ev agentReply now recent).2 = recent) ∧
    (strHasSub (pyStrip agentReply) m = false →
      pyRemoveAll m (pyStrip agentReply) = pyStrip agentReply) ∧
    (∀ d ∈ (execute ev agentReply now recent).1.delivered,
      d.length ≤ MAX_MESSAGE_LENGTH + 3 ∧
      (execute ev agentReply now recent).1.returned = some d) := by
  have hm0 : m.isEmpty = false := by
    simp [hne]
  refine ⟨?_, ?_, ?_⟩
  · intro hs
    simp [execute, execute_silent, execute_previews, hm, hm0, hs]
  · intro hs
    exact pyRemoveAll_not_sub m _ hne hs
  · intro d hd
    cases hsil : execute_silent ev (pyStrip agentReply) with
    | true =>
      simp only [execute] at hd
      rw [hsil, if_pos rfl] at hd
      simp at hd
    | false =>
      simp only [execute] at hd ⊢
      rw [hsil, if_neg Bool.false_ne_true] at hd ⊢
      exact exec_deliver_delivered _ _ _ _ _ d hd

/-- Witness for `execute_silence_spec`: a heartbeat-style reply consisting of
the marker suppresses delivery. -/
theorem execute_silence_spec_witness :
    (execute ⟨"hb", [], none, true, none, some ['O', 'K'], none⟩
        ['O', 'K'] 0 []).1.delivered = [] :=
  ((Triggers.execute_silence_spec ⟨"hb", [], none, true, none, some ['O', 'K'], none⟩
      ['O', 'K'] 0 [] ['O', 'K'] rfl (by decide)).1 (by decide)).1

/-- C9 fails as stated: an executed event whose context carries no task id
persists no transcript at all, even though its result is delivered — the
transcript write happens only under `if task_id:`. -/
theorem transcript_missing_cex :
    (execute ⟨"tg", [], none, true, none, none, none⟩ ['h', 'i'] 0 []).1.delivered =
      [['h', 'i']] ∧
    (execute ⟨"tg", [], none, true, none, none, none⟩ ['h', 'i'] 0 []).1.saved = [] ∧
    (execute ⟨"tg", [], none, true, none, none, none⟩ ['h', 'i'] 0 []).2 = [] :=
  ⟨rfl, rfl, rfl⟩

/-- C9 amended: a transcript record `{task_id, source, timestamp, prompt,
result}` is persisted exactly when the event carries a task id in its context
and non-suppressed content is produced (the record's result being the
delivered content); events without a task id persist nothing; and every save
appends the new record and trims the rolling log to its last 100 entries —
the log never exceeds 100 records, always ends with the newest record, and is
a tail segment of the previous log plus the new record (oldest dropped
first). -/
theorem transcript_spec (ev : TriggerEvent) (agentReply : Str) (now : Int)
    (recent : List Transcript) :
    (∀ tid c, ev.context_task_id = some tid →
      (execute ev agentReply now recent).1.returned = some c →
      (execute ev agentReply now recent).1.saved =
        [{ task_id := tid, source := ev.source, timestamp := now,
           prompt := ev.prompt, result := c }] ∧
      (execute ev agentReply now recent).2 =
        save_transcript recent
          { task_id := tid, source := ev.source, timestamp := now,
            prompt := ev.prompt, result := c }) ∧
    (ev.context_task_id = none →
      (execute ev agentReply now recent).1.saved = [] ∧
      (execute ev agentReply now recent).2 = recent) ∧
    (∀ t : Transcript,
      (save_transcript recent t).length = min (recent.length + 1) 100 ∧
      (save_transcript recent t).getLast? = some t ∧
      ∃ k, save_transcript recent t = (recent ++ [t]).drop k) := by
  refine ⟨?_, ?_, ?_⟩
  · intro tid c htid hret
    cases hsil : execute_silent ev (pyStrip agentReply) with
    | true =>
      simp only [execute] at hret
      rw [hsil, if_pos rfl] at hret
      simp at hret
    | false =>
      simp only [execute] at hret ⊢
      rw [hsil, if_neg Bool.false_ne_true] at hret ⊢
      exact exec_deliver_saved _ _ _ _ _ _ _ htid hret
  · intro htid
    cases hsil : execute_silent ev (pyStrip agentReply) with
    | true =>
      simp only [execute]
      rw [hsil, if_pos rfl]
      exact ⟨rfl, rfl⟩
    | false =>
      simp only [execute]
      rw [hsil, if_neg Bool.false_ne_true]
      exact exec_deliver_none _ _ _ _ _ htid
  · intro t
    unfold save_transcript trim_recent
    have hlen : (recent ++ [t]).length = recent.length + 1 := by simp
    by_cases h : 100 < (recent ++ [t]).length
    · rw [if_pos h]
      refine ⟨?_, ?_, ⟨(recent ++ [t]).length - 100, rfl⟩⟩
      · rw [List.length_drop, hlen]
        rw [hlen] at h
        omega
      · have hk : (recent ++ [t]).length - 100 ≤ recent.length := by
          rw [hlen]
          omega
        rw [List.drop_append_of_le_length hk]
        exact List.getLast?_concat _
    · rw [if_neg h]
      rw [hlen] at h
      exact ⟨by rw [hlen]; omega, List.getLast?_concat _, ⟨0, by simp⟩⟩

/-- Witness for `transcript_spec`: an event with a task id persists exactly
one matching transcript record. -/
theorem transcript_spec_witness :
    (execute ⟨"sched", ['q'], some "t42", true, none, none, none⟩
        ['h', 'i'] 5 []).1.saved =
      [{ task_id := "t42", source := "sched", timestamp := 5,
         prompt := ['q'], result := ['h', 'i'] }] :=
  ((Triggers.transcript_spec ⟨"sched", ['q'], some "t42", true, none, none, none⟩
      ['h', 'i'] 5 []).1 "t42" ['h', 'i'] rfl rfl).1

end Triggers

end Jobs
